import Mathlib

/-
Verification development for the rosman fleet-reconciliation agent
(package mikrotik).  The Go source is shallowly embedded: pure helpers
become Lean functions, the stateful per-device operations become explicit
state-passing functions over a device-state record that carries the live
router configuration, the connection flags, and the trace of issued
control-plane commands.  External network transports (routeros API, ssh,
sftp) are modelled at their interface by oracle flags in an environment
record: the oracle decides which dials, queries and commands fail, and the
embedded code reacts to those outcomes exactly as the source does.
-/

/-! ## Declared-state data model (types from the source) -/

abbrev TListOfStrings := List String

structure TParam where
  name : String
  value : String
  note : String
deriving DecidableEq

abbrev TParams := List TParam

structure TUser where
  login : String
  pass : String
  group : String
  address : String
  comment : String
  «alias» : String
  key : String
deriving DecidableEq

abbrev TUsers := List TUser

structure TGroup where
  name : String
  skin : String
  comment : String
  policy : String
deriving DecidableEq

abbrev TGroups := List TGroup

structure TSchedule where
  name : String
  disabled : String
  startDate : String
  startTime : String
  interval : String
  policy : String
  comment : String
  script : String
  «alias» : String
  onEvent : String
deriving DecidableEq

abbrev TSchedules := List TSchedule

structure TTask where
  name : String
  start : Int
  delay : Int
  expired : Int
  alert : Int
  note : String
deriving DecidableEq

/-- Device record.  The fields are the ones of THost after LoadConfig has
resolved the task reference and filtered the declared collections by alias;
the connection handles live in the threaded device state instead. -/
structure THost where
  name : String
  ip : String
  login : String
  pass : String
  portAPI : Int
  portSSH : Int
  backupFolder : String
  usersAllowed : TListOfStrings
  users : TUsers
  groups : TGroups
  schedules : TSchedules
  task : TTask
deriving DecidableEq

/-! ## Pure helpers from the source -/

/-- Linear membership scan of TListOfStrings.IsContain. -/
def TListOfStrings.IsContain (users : TListOfStrings) (s : String) : Bool :=
  match users with
  | [] => false
  | element :: rest => if element = s then true else TListOfStrings.IsContain rest s

/-- Linear membership scan of TGroups.IsContain (compares the Name field). -/
def TGroups.IsContain (groups : TGroups) (group : String) : Bool :=
  match groups with
  | [] => false
  | element :: rest => if element.name = group then true else TGroups.IsContain rest group

/-- Linear membership scan of TUsers.IsContain (compares the Login field). -/
def TUsers.IsContain (users : TUsers) (user : String) : Bool :=
  match users with
  | [] => false
  | element :: rest => if element.login = user then true else TUsers.IsContain rest user

/-- Linear membership scan of TSchedules.IsContain (compares the Name field). -/
def TSchedules.IsContain (schedules : TSchedules) (name : String) : Bool :=
  match schedules with
  | [] => false
  | element :: rest => if element.name = name then true else TSchedules.IsContain rest name

/-- Error taxonomy of the agent.  GetByName and GetNextTime style failures
carry their message; transport failures and rejected commands are the
connection and command cases. -/
inductive Err where
  | connection
  | command
  | transfer
  | notFound (msg : String)
  | retryExhausted
deriving DecidableEq

/-- First-match lookup of TParams.GetByName. -/
def TParams.GetByName (params : TParams) (name : String) : Except Err TParam :=
  match params with
  | [] => .error (.notFound ("param does not exist"))
  | param :: rest => if param.name = name then .ok param else TParams.GetByName rest name

/-- Allow-list of CleanUsers: the device admin login, the explicit
extra-allowed logins, then the declared users logins, in source order. -/
def GetUsersAllowed (host : THost) : TListOfStrings :=
  host.login :: (host.usersAllowed ++ host.users.map (fun u => u.login))

/-- Anchor-aligned next instant of GetNextTime.  The source computes
`next := (int64((now-start)/delay)+1)*delay + start` with Go division,
which truncates toward zero (Int.tdiv).  Go panics on division by zero,
so the embedding returns none exactly when the Task delay is zero. -/
def GetNextTime (now start delay : Int) : Option Int :=
  if delay = 0 then none
  else some ((Int.tdiv (now - start) delay + 1) * delay + start)

deriving instance DecidableEq for Except

/-! ## Device state, environment oracle, and the connection manager -/

/-- Control-plane commands issued to a device, identified by the name or
login they act on (the only live-entry field the program ever reads). -/
inductive Cmd where
  | userAdd (login : String)
  | groupAdd (name : String)
  | schedAdd (name : String)
  | userRemove (login : String)
  | groupRemove (name : String)
  | schedRemove (name : String)
  | keyImport (login : String)
  | keyUpload (key : String)
  | dirMake (dir : String)
  | treeDownload (src dst : String)
deriving DecidableEq

/-- Kinds of print-style live-state queries. -/
inductive QueryKind where
  | users
  | groups
  | schedules
deriving DecidableEq

/-- Live configuration observed on the device: login and name lists, since
the name or login is the only field of a live entry the program reads. -/
structure RouterState where
  users : List String
  groups : List String
  schedules : List String
deriving DecidableEq

/-- Lazy cached connection flags of tConnections: true means connected. -/
structure Conns where
  api : Bool
  ssh : Bool
  sftp : Bool
deriving DecidableEq

/-- Threaded device state: live configuration, connection flags, the trace
of commands issued to the device (rejected commands included), and the
sleeps performed by the retry loop (milliseconds). -/
structure DState where
  live : RouterState
  conns : Conns
  trace : List Cmd
  sleeps : List Int
deriving DecidableEq

/-- Environment oracle for the external transports: which dials fail,
which commands the device rejects, which queries fail, and which of the
ssh-key import attempts (numbered from 1) fail. -/
structure Env where
  apiFail : Bool
  sshFail : Bool
  sftpFail : Bool
  cmdFail : Cmd → Bool
  queryFail : QueryKind → Bool
  importFail : Nat → Bool

/-- GetConnectionAPI: lazily dial the control-plane protocol and cache the
handle; a cached handle is reused without dialing. -/
def GetConnectionAPI (env : Env) (s : DState) : Except Err Unit × DState :=
  if s.conns.api then (.ok (), s)
  else if env.apiFail then (.error .connection, s)
  else (.ok (), { s with conns := { s.conns with api := true } })

/-- GetConnectionSSH: lazily dial secure shell and cache the handle. -/
def GetConnectionSSH (env : Env) (s : DState) : Except Err Unit × DState :=
  if s.conns.ssh then (.ok (), s)
  else if env.sshFail then (.error .connection, s)
  else (.ok (), { s with conns := { s.conns with ssh := true } })

/-- GetConnectionSFTP: if no file-transfer session is cached, first acquire
the shell session (propagating its failure), then layer the file-transfer
session atop it; the partially acquired shell session persists when the
second step fails, exactly as the source mutates host.connections.ssh
before sftp.NewClient runs. -/
def GetConnectionSFTP (env : Env) (s : DState) : Except Err Unit × DState :=
  if s.conns.sftp then (.ok (), s)
  else
    match GetConnectionSSH env s with
    | (.error e, s') => (.error e, s')
    | (.ok _, s') =>
      if env.sftpFail then (.error .connection, s')
      else (.ok (), { s' with conns := { s'.conns with sftp := true } })

/-- Disconnect: close whichever sessions are open and clear all three
handles, best effort, never failing. -/
def Disconnect (s : DState) : DState :=
  { s with conns := { api := false, ssh := false, sftp := false } }

/-- Dispatch of connApi.Run for a mutation verb: acquire the control-plane
session, record the issued command in the trace, and apply its effect to
the live state when the device accepts it; a rejected command stays in the
trace (it was issued) but leaves the live state unchanged. -/
def runCmd (env : Env) (c : Cmd) (eff : RouterState → RouterState) (s : DState) :
    Except Err Unit × DState :=
  match GetConnectionAPI env s with
  | (.error e, s') => (.error e, s')
  | (.ok _, s') =>
    let s'' := { s' with trace := s'.trace ++ [c] }
    if env.cmdFail c then (.error .command, s'')
    else (.ok (), { s'' with live := eff s''.live })

/-- Dispatch of connApi.Run for a print-style query: acquire the
control-plane session and read the requested live list. -/
def runQuery (env : Env) (k : QueryKind) (s : DState) :
    Except Err (List String) × DState :=
  match GetConnectionAPI env s with
  | (.error e, s') => (.error e, s')
  | (.ok _, s') =>
    if env.queryFail k then (.error .command, s')
    else
      match k with
      | .users => (.ok s'.live.users, s')
      | .groups => (.ok s'.live.groups, s')
      | .schedules => (.ok s'.live.schedules, s')

/-- GetUsers: the /user/print query, returning the live logins. -/
def GetUsers (env : Env) (s : DState) : Except Err (List String) × DState :=
  runQuery env .users s

/-- GetGroups: the /user/group/print query, returning the live names. -/
def GetGroups (env : Env) (s : DState) : Except Err (List String) × DState :=
  runQuery env .groups s

/-- GetSchedules: the /system/scheduler/print query, returning the live
names. -/
def GetSchedules (env : Env) (s : DState) : Except Err (List String) × DState :=
  runQuery env .schedules s

/-- RemoveUser: the /user/remove command for one login. -/
def RemoveUser (env : Env) (user : String) (s : DState) : Except Err Unit × DState :=
  runCmd env (.userRemove user)
    (fun l => { l with users := l.users.filter (fun x => x ≠ user) }) s

/-- RemoveGroup: the /user/group/remove command for one name. -/
def RemoveGroup (env : Env) (group : String) (s : DState) : Except Err Unit × DState :=
  runCmd env (.groupRemove group)
    (fun l => { l with groups := l.groups.filter (fun x => x ≠ group) }) s

/-- RemoveSchedule: the /system/scheduler/remove command for one name. -/
def RemoveSchedule (env : Env) (schedule : String) (s : DState) : Except Err Unit × DState :=
  runCmd env (.schedRemove schedule)
    (fun l => { l with schedules := l.schedules.filter (fun x => x ≠ schedule) }) s

/-- MakeUser: the /user/add command.  Password generation for an empty
declared password randomizes a field the model never reads again, so it is
not tracked. -/
def MakeUser (env : Env) (user : TUser) (s : DState) : Except Err Unit × DState :=
  runCmd env (.userAdd user.login)
    (fun l => { l with users := l.users ++ [user.login] }) s

/-- MakeGroup: the /user/group/add command. -/
def MakeGroup (env : Env) (group : TGroup) (s : DState) : Except Err Unit × DState :=
  runCmd env (.groupAdd group.name)
    (fun l => { l with groups := l.groups ++ [group.name] }) s

/-- MakeSchedule: the /system/scheduler/add command. -/
def MakeSchedule (env : Env) (schedule : TSchedule) (s : DState) : Except Err Unit × DState :=
  runCmd env (.schedAdd schedule.name)
    (fun l => { l with schedules := l.schedules ++ [schedule.name] }) s

/-- IsContainUser: query the live logins and scan for the declared login;
a failing query yields false instead of propagating the error. -/
def IsContainUser (env : Env) (user : TUser) (s : DState) : Bool × DState :=
  match GetUsers env s with
  | (.error _, s') => (false, s')
  | (.ok logins, s') => (logins.contains user.login, s')

/-- IsContainGroup: query the live names and scan for the declared name;
a failing query yields false instead of propagating the error. -/
def IsContainGroup (env : Env) (group : TGroup) (s : DState) : Bool × DState :=
  match GetGroups env s with
  | (.error _, s') => (false, s')
  | (.ok names, s') => (names.contains group.name, s')

/-- IsContainSchedule: query the live names and scan for the declared name;
a failing query yields false instead of propagating the error. -/
def IsContainSchedule (env : Env) (schedule : TSchedule) (s : DState) : Bool × DState :=
  match GetSchedules env s with
  | (.error _, s') => (false, s')
  | (.ok names, s') => (names.contains schedule.name, s')

/-! ## Reconciliation operations -/

/-- Removal loop of CleanUsers over the queried snapshot of live logins:
remove every login absent from the allow-list, aborting on the first
removal failure. -/
def CleanUsersLoop (env : Env) (usersPass : TListOfStrings) :
    List String → DState → Except Err Unit × DState
  | [], s => (.ok (), s)
  | user :: rest, s =>
    if usersPass.IsContain user then CleanUsersLoop env usersPass rest s
    else
      match RemoveUser env user s with
      | (.error e, s') => (.error e, s')
      | (.ok _, s') => CleanUsersLoop env usersPass rest s'

/-- CleanUsers: query the live logins and remove every one absent from the
allow-list of GetUsersAllowed. -/
def CleanUsers (host : THost) (env : Env) (s : DState) : Except Err Unit × DState :=
  let usersPass := GetUsersAllowed host
  match GetUsers env s with
  | (.error e, s') => (.error e, s')
  | (.ok users, s') => CleanUsersLoop env usersPass users s'

/-- Removal loop of CleanGroups over the queried snapshot of live names. -/
def CleanGroupsLoop (env : Env) (declared : TGroups) :
    List String → DState → Except Err Unit × DState
  | [], s => (.ok (), s)
  | group :: rest, s =>
    if declared.IsContain group then CleanGroupsLoop env declared rest s
    else
      match RemoveGroup env group s with
      | (.error e, s') => (.error e, s')
      | (.ok _, s') => CleanGroupsLoop env declared rest s'

/-- CleanGroups: query the live names and remove every one absent from the
declared groups of the device. -/
def CleanGroups (host : THost) (env : Env) (s : DState) : Except Err Unit × DState :=
  match GetGroups env s with
  | (.error e, s') => (.error e, s')
  | (.ok groups, s') => CleanGroupsLoop env host.groups groups s'

/-- Removal loop of CleanSchedules over the queried snapshot of live
names. -/
def CleanSchedulesLoop (env : Env) (declared : TSchedules) :
    List String → DState → Except Err Unit × DState
  | [], s => (.ok (), s)
  | schedule :: rest, s =>
    if declared.IsContain schedule then CleanSchedulesLoop env declared rest s
    else
      match RemoveSchedule env schedule s with
      | (.error e, s') => (.error e, s')
      | (.ok _, s') => CleanSchedulesLoop env declared rest s'

/-- CleanSchedules: query the live names and remove every one absent from
the declared schedules of the device. -/
def CleanSchedules (host : THost) (env : Env) (s : DState) : Except Err Unit × DState :=
  match GetSchedules env s with
  | (.error e, s') => (.error e, s')
  | (.ok schedules, s') => CleanSchedulesLoop env host.schedules schedules s'

/-- UploadKey: acquire the file-transfer session and copy the local public
key file onto the device.  The sftp Create call, the key-directory param
lookup, the local file read and io.Copy are external I/O collapsed into a
single oracle-controlled fallible effect recorded as keyUpload. -/
def UploadKey (env : Env) (key : String) (s : DState) : Except Err Unit × DState :=
  match GetConnectionSFTP env s with
  | (.error e, s') => (.error e, s')
  | (.ok _, s') =>
    let s'' := { s' with trace := s'.trace ++ [Cmd.keyUpload key] }
    if env.cmdFail (.keyUpload key) then (.error .transfer, s'') else (.ok (), s'')

/-- Attempt loop of ImportSshKey: while attempts remain, acquire the
control-plane session (its failure propagates immediately), sleep the
fixed delay, issue the import command, stop on the first accepted attempt,
and continue on a rejected one; with all attempts used, fail with the
retry-exhausted error.  The attempt index i numbers attempts from 1 as the
source loop does. -/
def ImportSshKeyLoop (env : Env) (login : String) (delay : Int) (i : Nat) :
    Nat → DState → Except Err Unit × DState
  | 0, s => (.error .retryExhausted, s)
  | remaining + 1, s =>
    match GetConnectionAPI env s with
    | (.error e, s') => (.error e, s')
    | (.ok _, s') =>
      let s'' := { s' with sleeps := s'.sleeps ++ [delay],
                           trace := s'.trace ++ [Cmd.keyImport login] }
      if env.importFail i then ImportSshKeyLoop env login delay (i + 1) remaining s''
      else (.ok (), s'')

/-- ImportSshKey: bounded retry of the /user/ssh-keys/import command with a
fixed inter-attempt delay. -/
def ImportSshKey (env : Env) (user : TUser) (delay : Int) (attempts : Nat) (s : DState) :
    Except Err Unit × DState :=
  ImportSshKeyLoop env user.login delay 1 attempts s

/-- Per-user body of AddUsers: skip a declared user already live; attempt
creation otherwise, logging and continuing with the next user when the
creation command fails; after a successful creation of a user declaring a
key file, upload and import the key, propagating failures of those two
steps. -/
def AddUsersLoop (env : Env) : TUsers → DState → Except Err Unit × DState
  | [], s => (.ok (), s)
  | user :: rest, s =>
    match IsContainUser env user s with
    | (true, s') => AddUsersLoop env rest s'
    | (false, s') =>
      match MakeUser env user s' with
      | (.error _, s'') => AddUsersLoop env rest s''
      | (.ok _, s'') =>
        if user.key ≠ "" then
          match UploadKey env user.key s'' with
          | (.error e, s3) => (.error e, s3)
          | (.ok _, s3) =>
            match ImportSshKey env user 5000 10 s3 with
            | (.error e, s4) => (.error e, s4)
            | (.ok _, s4) => AddUsersLoop env rest s4
        else AddUsersLoop env rest s''

/-- AddUsers over the declared users of the device. -/
def AddUsers (host : THost) (env : Env) (s : DState) : Except Err Unit × DState :=
  AddUsersLoop env host.users s

/-- Per-group body of AddGroups: skip a declared group already live,
create it otherwise, propagating a creation failure. -/
def AddGroupsLoop (env : Env) : TGroups → DState → Except Err Unit × DState
  | [], s => (.ok (), s)
  | group :: rest, s =>
    match IsContainGroup env group s with
    | (true, s') => AddGroupsLoop env rest s'
    | (false, s') =>
      match MakeGroup env group s' with
      | (.error e, s'') => (.error e, s'')
      | (.ok _, s'') => AddGroupsLoop env rest s''

/-- AddGroups over the declared groups of the device. -/
def AddGroups (host : THost) (env : Env) (s : DState) : Except Err Unit × DState :=
  AddGroupsLoop env host.groups s

/-- Per-schedule body of AddSchedules: skip a declared schedule already
live, create it otherwise, propagating a creation failure. -/
def AddSchedulesLoop (env : Env) : TSchedules → DState → Except Err Unit × DState
  | [], s => (.ok (), s)
  | schedule :: rest, s =>
    match IsContainSchedule env schedule s with
    | (true, s') => AddSchedulesLoop env rest s'
    | (false, s') =>
      match MakeSchedule env schedule s' with
      | (.error e, s'') => (.error e, s'')
      | (.ok _, s'') => AddSchedulesLoop env rest s''

/-- AddSchedules over the declared schedules of the device. -/
def AddSchedules (host : THost) (env : Env) (s : DState) : Except Err Unit × DState :=
  AddSchedulesLoop env host.schedules s

/-- MakeDir: acquire the file-transfer session and create the remote
directory (sftp MkdirAll), the directory creation itself being an
oracle-controlled fallible effect recorded as dirMake. -/
def MakeDir (env : Env) (dir : String) (s : DState) : Except Err Unit × DState :=
  match GetConnectionSFTP env s with
  | (.error e, s') => (.error e, s')
  | (.ok _, s') =>
    let s'' := { s' with trace := s'.trace ++ [Cmd.dirMake dir] }
    if env.cmdFail (.dirMake dir) then (.error .transfer, s'') else (.ok (), s'')

/-- MakeBackupFolder: create the declared backup folder on the device,
doing nothing when none is declared. -/
def MakeBackupFolder (host : THost) (env : Env) (s : DState) : Except Err Unit × DState :=
  if host.backupFolder ≠ "" then MakeDir env host.backupFolder s
  else (.ok (), s)

/-- Backup download step of StartManager, treated at this level as one
opaque fallible transfer recorded as treeDownload (the recursive
file-system behavior of DownloadFolder is embedded and analyzed separately
below): acquire the file-transfer session and mirror the backup folder. -/
def DownloadFolderStep (env : Env) (src dst : String) (s : DState) : Except Err Unit × DState :=
  match GetConnectionSFTP env s with
  | (.error e, s') => (.error e, s')
  | (.ok _, s') =>
    let s'' := { s' with trace := s'.trace ++ [Cmd.treeDownload src dst] }
    if env.cmdFail (.treeDownload src dst) then (.error .transfer, s'') else (.ok (), s'')

/-- Replace-all over the characters of a string: the embedding of
strings.Replace with count -1, by structural recursion so that concrete
template substitutions reduce; an empty pattern leaves the string
unchanged (no call site passes one). -/
def replaceAllAux (pat rep : List Char) : Nat → List Char → List Char
  | _, [] => []
  | 0, l => l
  | fuel + 1, c :: rest =>
    if pat.isPrefixOf (c :: rest) then
      rep ++ replaceAllAux pat rep fuel (rest.drop (pat.length - 1))
    else c :: replaceAllAux pat rep fuel rest

/-- strings.Replace of every occurrence of a pattern (the fuel, at least
the length of the subject, makes the recursion structural). -/
def replaceAll (s pat rep : String) : String :=
  match pat.data with
  | [] => s
  | p :: ps => String.mk (replaceAllAux (p :: ps) rep.data s.data.length s.data)

/-- Backup directory template substitution performed by StartManager on
the dir_backup param value. -/
def backupDirValue (host : THost) (template : String) : String :=
  replaceAll (replaceAll template ("\x7bhost.name\x7d") host.name) ("\x7bhost.ip\x7d") host.ip

/-- StartManager: one reconciliation cycle in the fixed source order,
aborting with the first error a step returns; sessions are disconnected
only on the all-success path. -/
def StartManager (params : TParams) (host : THost) (env : Env) (s : DState) :
    Except Err Unit × DState :=
  match params.GetByName ("dir_backup") with
  | .error e => (.error e, s)
  | .ok dir =>
    match CleanUsers host env s with
    | (.error e, s1) => (.error e, s1)
    | (.ok _, s1) =>
      match CleanGroups host env s1 with
      | (.error e, s2) => (.error e, s2)
      | (.ok _, s2) =>
        match CleanSchedules host env s2 with
        | (.error e, s3) => (.error e, s3)
        | (.ok _, s3) =>
          match AddGroups host env s3 with
          | (.error e, s4) => (.error e, s4)
          | (.ok _, s4) =>
            match AddUsers host env s4 with
            | (.error e, s5) => (.error e, s5)
            | (.ok _, s5) =>
              match MakeBackupFolder host env s5 with
              | (.error e, s6) => (.error e, s6)
              | (.ok _, s6) =>
                match AddSchedules host env s6 with
                | (.error e, s7) => (.error e, s7)
                | (.ok _, s7) =>
                  match DownloadFolderStep env host.backupFolder (backupDirValue host dir.value) s7 with
                  | (.error e, s8) => (.error e, s8)
                  | (.ok _, s8) => (.ok (), Disconnect s8)

/-- Single cycle of the Run loop: execute StartManager, then compute the
instant of the next run, at the fixed Task back-off from now after a
failure, or at the anchor-aligned instant after success; now is the clock
when the cycle finished. -/
def RunOnce (params : TParams) (host : THost) (env : Env) (s : DState) (now : Int) :
    (Except Err Unit × DState) × Option Int :=
  match StartManager params host env s with
  | (.error e, s') => ((.error e, s'), some (now + host.task.expired))
  | (.ok _, s') => ((.ok (), s'), GetNextTime now host.task.start host.task.delay)

/-! ## Step-sequence view of StartManager -/

/-- Sequential runner for a list of cycle steps, stopping at the first
step that returns an error. -/
def runSteps : List (DState → Except Err Unit × DState) → DState → Except Err Unit × DState
  | [], s => (.ok (), s)
  | f :: rest, s =>
    match f s with
    | (.error e, s') => (.error e, s')
    | (.ok _, s') => runSteps rest s'

/-- The eight steps of one reconciliation cycle in source order. -/
def managerSteps (host : THost) (env : Env) (dirValue : String) :
    List (DState → Except Err Unit × DState) :=
  [CleanUsers host env, CleanGroups host env, CleanSchedules host env,
   AddGroups host env, AddUsers host env, MakeBackupFolder host env,
   AddSchedules host env, DownloadFolderStep env host.backupFolder dirValue]

/-! ## Invariants and failure-free environments -/

/-- Session invariant of the connection manager: an open file-transfer
session implies its underlying shell session is open. -/
def ConnInv (c : Conns) : Prop := c.sftp = true → c.ssh = true

/-- Failure-free environment: every dial, command, query and import
attempt succeeds. -/
def EnvOk (env : Env) : Prop :=
  env.apiFail = false ∧ env.sshFail = false ∧ env.sftpFail = false ∧
  (∀ c, env.cmdFail c = false) ∧ (∀ k, env.queryFail k = false) ∧
  (∀ i, env.importFail i = false)

/-! ## Concrete fixtures used by witnesses and counterexamples -/

/-- Environment in which every external interaction succeeds. -/
def envAllOk : Env :=
  ⟨false, false, false, fun _ => false, fun _ => false, fun _ => false⟩

/-- Environment whose control-plane dial fails. -/
def envApiDown : Env := { envAllOk with apiFail := true }

/-- Environment in which every live-state query fails. -/
def envQueryDown : Env := { envAllOk with queryFail := fun _ => true }

/-- Environment in which every ssh-key import attempt is rejected. -/
def envImportDown : Env := { envAllOk with importFail := fun _ => true }

/-- Environment that rejects exactly the creation command of user u. -/
def envUserAddUFail : Env :=
  { envAllOk with cmdFail := fun c => match c with
      | .userAdd l => l == ("u")
      | _ => false }

/-- Environment whose secure-shell dial fails. -/
def envSshDown : Env := { envAllOk with sshFail := true }

/-- Environment whose file-transfer layering fails. -/
def envSftpDown : Env := { envAllOk with sftpFail := true }

/-- Shared interval policy fixture. -/
def task0 : TTask := ⟨"t", 0, 3600, 600, 0, ""⟩

/-- Parameter table fixture holding the backup-directory template. -/
def params0 : TParams := [⟨"dir_backup", "/backup/", ""⟩]

/-- Device fixture with no declared users, groups or schedules. -/
def host0 : THost := ⟨"r1", "10.0.0.1", "adm", "pw", 8728, 22, "", [], [], [], [], task0⟩

/-- Declared user fixture u (no key). -/
def userU : TUser := ⟨"u", "p", "full", "", "", "a", ""⟩

/-- Declared user fixture v (no key). -/
def userV : TUser := ⟨"v", "p", "full", "", "", "a", ""⟩

/-- Declared group fixture. -/
def groupG : TGroup := ⟨"g", "default", "", "read"⟩

/-- Declared schedule fixture. -/
def schedS : TSchedule := ⟨"s", "no", "", "00:00:00", "1d", "", "", "bk", "a", ""⟩

/-- Device fixture declaring the users u and v. -/
def hostUV : THost :=
  ⟨"r1", "10.0.0.1", "adm", "pw", 8728, 22, "", [], [userU, userV], [], [], task0⟩

/-- Device fixture with one declared user, group and schedule and one
extra-allowed login. -/
def hostW : THost :=
  ⟨"r1", "10.0.0.1", "adm", "pw", 8728, 22, "", ["ops"], [userU], [groupG], [schedS], task0⟩

/-- Fresh device state: nothing live, nothing connected, empty trace. -/
def s0 : DState := ⟨⟨[], [], []⟩, ⟨false, false, false⟩, [], []⟩

/-- Device state whose live users are exactly the admin login. -/
def sAdm : DState := ⟨⟨["adm"], [], []⟩, ⟨false, false, false⟩, [], []⟩

/-- Device state with live entries of every kind, some undeclared, and a
connected control-plane session. -/
def sLiveW : DState := ⟨⟨["adm", "x", "u"], ["g", "h"], ["s", "t"]⟩, ⟨true, false, false⟩, [], []⟩

/-- Device state whose live users are exactly u. -/
def sU : DState := ⟨⟨["u"], [], []⟩, ⟨false, false, false⟩, [], []⟩

/-- Device state with an already connected control-plane session. -/
def sApi : DState := ⟨⟨[], [], []⟩, ⟨true, false, false⟩, [], []⟩

/-! ## File-system embedding of the recursive backup download -/

/-- Splitter on the slash character, by structural recursion over the
characters so that concrete path computations reduce; it agrees with
splitting on the separator string. -/
def splitSlashAux : List Char → List Char → List String
  | [], cur => [String.mk cur.reverse]
  | c :: rest, cur =>
    if c = '/' then String.mk cur.reverse :: splitSlashAux rest []
    else splitSlashAux rest (c :: cur)

/-- Slash-separated path split into its nonempty components, the way the
transport and the operating system resolve it (duplicate separators
collapse). -/
def pathComponents (s : String) : List String :=
  (splitSlashAux s.data []).filter (fun c => c ≠ "")

/-- Go filepath.Base restricted to the slash paths this program builds:
the last path component (every call site passes a nonempty path). -/
def baseName (s : String) : String :=
  match (pathComponents s).getLast? with
  | some c => c
  | none => ("/")

/-- Go filepath.ToSlash of filepath.Dir restricted to the slash paths this
program builds: the path without its last component. -/
def dirName (s : String) : String :=
  String.intercalate ("/") (pathComponents s).dropLast

/-- Remote file tree of the sftp session: the existing directories and the
files with their contents, keyed by resolved path components. -/
structure RemoteFS where
  dirs : List (List String)
  files : List (List String × String)
deriving DecidableEq

/-- Local file tree written by the download: existing directories and
files with contents, keyed by resolved path components. -/
structure LocalFS where
  dirs : List (List String)
  files : List (List String × String)
deriving DecidableEq

/-- ReadDir of the sftp session: the immediate children of a directory,
files before sub-directories, each with its base name and an is-directory
flag; listing a path that is not a directory fails as the transport
does. -/
def ReadDir (rfs : RemoteFS) (dir : String) : Except Err (List (String × Bool)) :=
  let p := pathComponents dir
  if rfs.dirs.contains p then
    .ok ((rfs.files.filterMap fun f =>
            if f.1.dropLast = p ∧ f.1 ≠ [] then (f.1.getLast?).map (fun n => (n, false)) else none)
         ++ (rfs.dirs.filterMap fun d =>
            if d.dropLast = p ∧ d ≠ [] then (d.getLast?).map (fun n => (n, true)) else none))
  else .error .transfer

/-- Open of the sftp session: the content of a remote file. -/
def sftpOpen (rfs : RemoteFS) (path : String) : Except Err String :=
  match rfs.files.lookup (pathComponents path) with
  | some content => .ok content
  | none => .error .transfer

/-- Remove of the sftp session: delete a remote file. -/
def sftpRemove (rfs : RemoteFS) (path : String) : Except Err RemoteFS :=
  let p := pathComponents path
  if (rfs.files.lookup p).isSome then
    .ok { rfs with files := rfs.files.filter (fun f => f.1 ≠ p) }
  else .error .transfer

/-- os.MkdirAll on the local tree: create the directory and every missing
ancestor, never failing. -/
def mkdirAll (lfs : LocalFS) (p : List String) : LocalFS :=
  let ancestors := (List.range (p.length + 1)).map (fun n => p.take n)
  let mkOne := fun (ds : List (List String)) (d : List String) =>
    if ds.contains d then ds else ds ++ [d]
  { lfs with dirs := ancestors.foldl mkOne lfs.dirs }

/-- os.Create on the local tree: create or truncate a file whose directory
exists. -/
def osCreate (lfs : LocalFS) (p : List String) (content : String) : Except Err LocalFS :=
  if lfs.dirs.contains p.dropLast then
    .ok { lfs with files := (lfs.files.filter (fun f => f.1 ≠ p)) ++ [(p, content)] }
  else .error .transfer

/-- DownloadFile: normalize the remote path through Dir and Base as the
source does, open the remote file, ensure the local directory exists,
write the local copy, and only with delete-after-copy set remove the
remote file; the local state reached so far is kept when a later step
fails. -/
def DownloadFile (rfs : RemoteFS) (lfs : LocalFS) (pathSrc dirDst : String) (del : Bool) :
    Except Err Unit × RemoteFS × LocalFS :=
  let file := baseName pathSrc
  let pathSrc' := (dirName pathSrc) ++ ("/") ++ file
  let pathDst := dirDst ++ ("/") ++ file
  match sftpOpen rfs pathSrc' with
  | .error e => (.error e, rfs, lfs)
  | .ok content =>
    let lfs' := mkdirAll lfs (pathComponents dirDst)
    match osCreate lfs' (pathComponents pathDst) content with
    | .error e => (.error e, rfs, lfs')
    | .ok lfs'' =>
      if del then
        match sftpRemove rfs pathSrc' with
        | .error e => (.error e, rfs, lfs'')
        | .ok rfs' => (.ok (), rfs', lfs'')
      else (.ok (), rfs, lfs'')

/-- DownloadFolder: list the remote directory, then fold over its entries
aborting at the first failure (an early error is carried unchanged past
the remaining entries, which is the fold rendering of the early return of
the source); each sub-directory is recursed into with the same flag,
concatenating the source and destination paths with the child name WITHOUT
a separator exactly as the source line does, and each plain file is
downloaded with a separator.  The recursion is bounded by explicit fuel
because the source recursion terminates only on the actual finite remote
tree. -/
def DownloadFolder : Nat → RemoteFS → LocalFS → String → String → Bool →
    Except Err Unit × RemoteFS × LocalFS
  | 0, rfs, lfs, _, _, _ => (.error .transfer, rfs, lfs)
  | fuel + 1, rfs, lfs, dirSrc, dirDst, del =>
    match ReadDir rfs dirSrc with
    | .error e => (.error e, rfs, lfs)
    | .ok entries =>
      entries.foldl
        (fun acc entry =>
          match acc with
          | (.error e, r, l) => (.error e, r, l)
          | (.ok _, r, l) =>
            if entry.2 then
              DownloadFolder fuel r l (dirSrc ++ entry.1) (dirDst ++ entry.1) del
            else DownloadFile r l (dirSrc ++ ("/") ++ entry.1) dirDst del)
        (.ok (), rfs, lfs)

/-- Remote tree fixture of the claim: directories a and a/b, files a/file1
and a/b/file2. -/
def rfsExample : RemoteFS :=
  ⟨[["a"], ["a", "b"]], [(["a", "file1"], "c1"), (["a", "b", "file2"], "c2")]⟩

/-- Empty local tree fixture (only the root directory exists). -/
def lfsEmpty : LocalFS := ⟨[[]], []⟩

/-! ## Theorems -/

/-! ## Claims C1 and C9: the scheduling arithmetic -/

/-- C1, counterexample.  The claimed law (result >= now and
result - delay < now) fails when now is itself anchor-aligned: at
start 0, delay 3600, now 3600 the code returns 7200, which violates
result - delay < now, while the value 3600 that does satisfy the claimed
law is not returned. -/
theorem getNextTime_claim_counterexample :
    GetNextTime 3600 0 3600 = some 7200 ∧
    ¬ ((7200 : Int) - 3600 < 3600) ∧
    ((3600 : Int) = 0 + 1 * 3600 ∧ (3600 : Int) ≥ 3600 ∧ (3600 : Int) - 3600 < 3600) ∧
    GetNextTime 3600 0 3600 ≠ some 3600 := by
  refine ⟨by decide, by decide, ⟨by decide, by decide, by decide⟩, by decide⟩

/-- C1, amended.  For a positive delay and now at or after the anchor,
GetNextTime returns the unique anchor-aligned value start + k*delay with
result > now and result - delay <= now (the smallest aligned instant
strictly after now); in particular start 0, delay 3600, now 5000 gives
7200. -/
theorem getNextTime_strict_anchor_law :
    (∀ now start delay : Int, 0 < delay → start ≤ now →
      ∃ k : Int, GetNextTime now start delay = some (start + k * delay) ∧
        now < start + k * delay ∧ start + k * delay - delay ≤ now ∧
        ∀ j : Int, now < start + j * delay → start + j * delay - delay ≤ now → j = k) ∧
    GetNextTime 5000 0 3600 = some 7200 := by
  constructor
  · intro now start delay hd hs
    have hne : delay ≠ 0 := ne_of_gt hd
    have htd : Int.tdiv (now - start) delay = (now - start) / delay :=
      Int.tdiv_eq_ediv (by omega) (le_of_lt hd)
    set q : Int := (now - start) / delay with hq
    have hdm : delay * q + (now - start) % delay = now - start := Int.ediv_add_emod _ _
    have hr0 : 0 ≤ (now - start) % delay := Int.emod_nonneg _ hne
    have hr1 : (now - start) % delay < delay := Int.emod_lt_of_pos _ hd
    refine ⟨q + 1, ?_, ?_, ?_, ?_⟩
    · simp only [GetNextTime, hne, if_false, htd]
      congr 1
      ring
    · nlinarith [hdm, hr0, hr1]
    · nlinarith [hdm, hr0, hr1]
    · intro j hj1 hj2
      have hk1 : now < start + (q + 1) * delay := by nlinarith [hdm, hr0, hr1]
      have hk2 : start + (q + 1) * delay - delay ≤ now := by nlinarith [hdm, hr0, hr1]
      have hlt1 : (j - (q + 1)) * delay < 1 * delay := by nlinarith
      have hlt2 : ((q + 1) - j) * delay < 1 * delay := by nlinarith
      have h1 : j - (q + 1) < 1 := lt_of_mul_lt_mul_right hlt1 (le_of_lt hd)
      have h2 : (q + 1) - j < 1 := lt_of_mul_lt_mul_right hlt2 (le_of_lt hd)
      omega
  · decide

/-- C1, witness: the amended law applied at the concrete example of the
claim (start 0, delay 3600, now 5000). -/
theorem getNextTime_strict_anchor_law_witness :
    ∃ k : Int, GetNextTime 5000 0 3600 = some (0 + k * 3600) ∧
      (5000 : Int) < 0 + k * 3600 ∧ (0 : Int) + k * 3600 - 3600 ≤ 5000 ∧
      ∀ j : Int, (5000 : Int) < 0 + j * 3600 → (0 : Int) + j * 3600 - 3600 ≤ 5000 → j = k :=
  getNextTime_strict_anchor_law.1 5000 0 3600 (by decide) (by decide)

/-- C9.  The next-run computation divides by the Task delay with no zero
guard (a Go runtime panic, embedded as none): it has a defined result
exactly when the delay is nonzero. -/
theorem getNextTime_defined_iff_delay_nonzero :
    ∀ now start delay : Int, GetNextTime now start delay = none ↔ delay = 0 := by
  intro now start delay
  unfold GetNextTime
  by_cases h : delay = 0 <;> simp [h]

/-- C2, failing evaluation.  On the claimed example tree (directories a and
a/b, files a/file1 and a/b/file2), DownloadFolder with delete-after-copy
set recurses into the sub-directory b through the separator-less
concatenation ab (the file branch of the same loop does insert the
separator), the listing of ab fails, and the call returns an error with
the local tree missing b/file2 and the remote tree still holding it,
contradicting the claimed mirror-and-empty postcondition. -/
theorem downloadFolder_subdir_separator_bug :
    DownloadFolder 5 rfsExample lfsEmpty ("a") ("local") true =
      (.error .transfer,
       ⟨[["a"], ["a", "b"]], [(["a", "b", "file2"], "c2")]⟩,
       ⟨[[], ["local"]], [(["local", "file1"], "c1")]⟩) ∧
    ReadDir rfsExample (("a") ++ ("b")) = .error .transfer ∧
    pathComponents (("a") ++ ("b")) = [("ab")] := by
  exact ⟨by decide, by decide, by decide⟩

/-- C5.  A cycle whose control-plane dial fails issues zero mutations (the
device state, its command trace included, comes back unchanged) and the
next run is scheduled at now plus the Task back-off, not at the
anchor-aligned instant; a cycle that succeeds is rescheduled at the
anchor-aligned instant of GetNextTime. -/
theorem runOnce_backoff_scheduling :
    (∀ params host env s now, env.apiFail = true → s.conns.api = false →
      ∃ e, RunOnce params host env s now = ((.error e, s), some (now + host.task.expired))) ∧
    (∀ params host env s now s', StartManager params host env s = (.ok (), s') →
      RunOnce params host env s now =
        ((.ok (), s'), GetNextTime now host.task.start host.task.delay)) := by
  constructor
  · intro params host env s now hapi hconn
    have hcu : CleanUsers host env s = (.error .connection, s) := by
      simp [CleanUsers, GetUsers, runQuery, GetConnectionAPI, hconn, hapi]
    cases hlook : params.GetByName (("dir_backup")) with
    | error e => exact ⟨e, by simp [RunOnce, StartManager, hlook]⟩
    | ok dir => exact ⟨.connection, by simp [RunOnce, StartManager, hlook, hcu]⟩
  · intro params host env s now s' h
    simp [RunOnce, h]

/-- C5, witness: the scheduling law applied to the dial-failure fixture and
to an all-success fixture. -/
theorem runOnce_backoff_scheduling_witness :
    (∃ e, RunOnce params0 host0 envApiDown s0 100 =
      ((.error e, s0), some (100 + host0.task.expired))) ∧
    RunOnce params0 host0 envAllOk s0 100 =
      ((.ok (), ⟨⟨[], [], []⟩, ⟨false, false, false⟩, [Cmd.treeDownload ("") ("/backup/")], []⟩),
       GetNextTime 100 host0.task.start host0.task.delay) :=
  ⟨runOnce_backoff_scheduling.1 params0 host0 envApiDown s0 100 rfl rfl,
   runOnce_backoff_scheduling.2 params0 host0 envAllOk s0 100
     ⟨⟨[], [], []⟩, ⟨false, false, false⟩, [Cmd.treeDownload ("") ("/backup/")], []⟩ (by decide)⟩

/-- C10.  A failing live-state query inside the contains checks yields
false instead of propagating the error, and the enclosing add operation
then proceeds to attempt creation even when the declared entry is already
present in a live state that could not be read. -/
theorem isContain_false_on_query_failure :
    (∀ env user s, env.queryFail .users = true → (IsContainUser env user s).1 = false) ∧
    (∀ env group s, env.queryFail .groups = true → (IsContainGroup env group s).1 = false) ∧
    (∀ env schedule s, env.queryFail .schedules = true →
      (IsContainSchedule env schedule s).1 = false) ∧
    (∀ env user s, env.queryFail .users = true → env.apiFail = false →
      env.cmdFail (.userAdd user.login) = false → user.key = ("") →
      user.login ∈ s.live.users →
      (AddUsersLoop env [user] s).2.trace = s.trace ++ [Cmd.userAdd user.login]) := by
  refine ⟨?_, ?_, ?_, ?_⟩
  · intro env user s h
    by_cases hc : s.conns.api <;>
      simp [IsContainUser, GetUsers, runQuery, GetConnectionAPI, h, hc] <;>
      by_cases ha : env.apiFail <;> simp [ha]
  · intro env group s h
    by_cases hc : s.conns.api <;>
      simp [IsContainGroup, GetGroups, runQuery, GetConnectionAPI, h, hc] <;>
      by_cases ha : env.apiFail <;> simp [ha]
  · intro env schedule s h
    by_cases hc : s.conns.api <;>
      simp [IsContainSchedule, GetSchedules, runQuery, GetConnectionAPI, h, hc] <;>
      by_cases ha : env.apiFail <;> simp [ha]
  · intro env user s hq ha hcmd hkey _hmem
    by_cases hc : s.conns.api <;>
      simp [AddUsersLoop, IsContainUser, GetUsers, runQuery, GetConnectionAPI, MakeUser,
        runCmd, hq, ha, hcmd, hkey, hc]

/-- C10, witness: the query-failure behavior at the all-queries-failing
environment, a declared user u that is already live, and the fixtures of
every kind. -/
theorem isContain_false_on_query_failure_witness :
    (IsContainUser envQueryDown userU sU).1 = false ∧
    (IsContainGroup envQueryDown groupG sU).1 = false ∧
    (IsContainSchedule envQueryDown schedS sU).1 = false ∧
    (AddUsersLoop envQueryDown [userU] sU).2.trace = sU.trace ++ [Cmd.userAdd userU.login] :=
  ⟨isContain_false_on_query_failure.1 envQueryDown userU sU rfl,
   isContain_false_on_query_failure.2.1 envQueryDown groupG sU rfl,
   isContain_false_on_query_failure.2.2.1 envQueryDown schedS sU rfl,
   isContain_false_on_query_failure.2.2.2 envQueryDown userU sU rfl rfl rfl rfl (by decide)⟩

/-- Helper: exhaustive description of the shell acquisition. -/
theorem getConnectionSSH_spec (env : Env) (s : DState) :
    GetConnectionSSH env s = (.ok (), s) ∧ s.conns.ssh = true ∨
    GetConnectionSSH env s = (.error .connection, s) ∧ s.conns.ssh = false ∧
      env.sshFail = true ∨
    GetConnectionSSH env s = (.ok (), { s with conns := { s.conns with ssh := true } }) ∧
      s.conns.ssh = false ∧ env.sshFail = false := by
  unfold GetConnectionSSH
  split_ifs with h1 h2
  · exact Or.inl ⟨rfl, h1⟩
  · exact Or.inr (Or.inl ⟨rfl, by simpa using h1, h2⟩)
  · exact Or.inr (Or.inr ⟨rfl, by simpa using h1, by simpa using h2⟩)

/-- C8.  Session discipline of the connection manager: every acquisition
and the disconnect preserve the invariant that an open file-transfer
session has its underlying shell session open (each kind being one cached
handle, at most one session of each kind exists by construction); a
successful file-transfer acquisition leaves both the shell and the
file-transfer sessions open; with no cached file-transfer session the
acquisition fails when the shell dial fails or when the layering step
fails; and the control-plane acquisition touches neither of the other two
sessions, nor they it. -/
theorem connection_session_invariant :
    (∀ env s, ConnInv s.conns →
      ConnInv (GetConnectionAPI env s).2.conns ∧
      ConnInv (GetConnectionSSH env s).2.conns ∧
      ConnInv (GetConnectionSFTP env s).2.conns ∧
      ConnInv (Disconnect s).conns) ∧
    (∀ env s s', ConnInv s.conns → GetConnectionSFTP env s = (.ok (), s') →
      s'.conns.ssh = true ∧ s'.conns.sftp = true) ∧
    (∀ env s, s.conns.sftp = false → s.conns.ssh = false → env.sshFail = true →
      (GetConnectionSFTP env s).1 = .error .connection) ∧
    (∀ env s, s.conns.sftp = false → env.sftpFail = true →
      (GetConnectionSFTP env s).1 = .error .connection) ∧
    (∀ env s, (GetConnectionAPI env s).2.conns.ssh = s.conns.ssh ∧
      (GetConnectionAPI env s).2.conns.sftp = s.conns.sftp ∧
      (GetConnectionSSH env s).2.conns.api = s.conns.api ∧
      (GetConnectionSFTP env s).2.conns.api = s.conns.api) := by
  refine ⟨?_, ?_, ?_, ?_, ?_⟩
  · intro env s hinv
    refine ⟨?_, ?_, ?_, ?_⟩
    · unfold GetConnectionAPI
      split_ifs <;> simp_all [ConnInv]
    · rcases getConnectionSSH_spec env s with ⟨hg, _⟩ | ⟨hg, _, _⟩ | ⟨hg, _, _⟩ <;>
        rw [hg] <;> simp_all [ConnInv]
    · by_cases h1 : s.conns.sftp = true
      · simpa [GetConnectionSFTP, h1] using hinv
      · unfold GetConnectionSFTP
        rw [if_neg h1]
        rcases getConnectionSSH_spec env s with ⟨hg, hT⟩ | ⟨hg, hF, _⟩ | ⟨hg, hF, _⟩ <;>
          rw [hg] <;> by_cases h2 : env.sftpFail = true <;> simp_all [ConnInv]
    · simp [Disconnect, ConnInv]
  · intro env s s' hinv h
    by_cases h1 : s.conns.sftp = true
    · unfold GetConnectionSFTP at h
      rw [if_pos h1] at h
      injection h with hA hB
      subst hB
      exact ⟨hinv h1, h1⟩
    · unfold GetConnectionSFTP at h
      rw [if_neg h1] at h
      by_cases h2 : env.sftpFail = true
      · rcases getConnectionSSH_spec env s with ⟨hg, hT⟩ | ⟨hg, hF, _⟩ | ⟨hg, hF, _⟩ <;>
          rw [hg] at h <;> simp [h2] at h
      · rcases getConnectionSSH_spec env s with ⟨hg, hT⟩ | ⟨hg, hF, _⟩ | ⟨hg, hF, _⟩ <;>
          rw [hg] at h <;> simp [h2] at h
        · subst h
          exact ⟨hT, rfl⟩
        · subst h
          exact ⟨rfl, rfl⟩
  · intro env s h1 h2 h3
    unfold GetConnectionSFTP
    rw [if_neg (by simp [h1])]
    rcases getConnectionSSH_spec env s with ⟨hg, hT⟩ | ⟨hg, hF, _⟩ | ⟨hg, hF, hE⟩ <;>
      rw [hg] <;> simp_all
  · intro env s h1 h2
    unfold GetConnectionSFTP
    rw [if_neg (by simp [h1])]
    rcases getConnectionSSH_spec env s with ⟨hg, hT⟩ | ⟨hg, hF, _⟩ | ⟨hg, hF, _⟩ <;> rw [hg] <;>
      simp [h2]
  · intro env s
    refine ⟨?_, ?_, ?_, ?_⟩
    · unfold GetConnectionAPI; split_ifs <;> rfl
    · unfold GetConnectionAPI; split_ifs <;> rfl
    · rcases getConnectionSSH_spec env s with ⟨hg, _⟩ | ⟨hg, _, _⟩ | ⟨hg, _, _⟩ <;> rw [hg]
    · by_cases h1 : s.conns.sftp = true
      · simp [GetConnectionSFTP, h1]
      · unfold GetConnectionSFTP
        rw [if_neg h1]
        rcases getConnectionSSH_spec env s with ⟨hg, _⟩ | ⟨hg, _, _⟩ | ⟨hg, _, _⟩ <;>
          rw [hg] <;> by_cases h2 : env.sftpFail = true <;> simp [h2]

/-- C8, witness: the session discipline applied to a fresh unconnected
state, the all-success environment, and the two per-step failure
environments. -/
theorem connection_session_invariant_witness :
    (ConnInv (GetConnectionAPI envAllOk s0).2.conns ∧
     ConnInv (GetConnectionSSH envAllOk s0).2.conns ∧
     ConnInv (GetConnectionSFTP envAllOk s0).2.conns ∧
     ConnInv (Disconnect s0).conns) ∧
    ((⟨⟨[], [], []⟩, ⟨false, true, true⟩, [], []⟩ : DState).conns.ssh = true ∧
     (⟨⟨[], [], []⟩, ⟨false, true, true⟩, [], []⟩ : DState).conns.sftp = true) ∧
    (GetConnectionSFTP envSshDown s0).1 = .error .connection ∧
    (GetConnectionSFTP envSftpDown s0).1 = .error .connection :=
  ⟨connection_session_invariant.1 envAllOk s0 (by unfold ConnInv; decide),
   connection_session_invariant.2.1 envAllOk s0
     ⟨⟨[], [], []⟩, ⟨false, true, true⟩, [], []⟩ (by unfold ConnInv; decide) (by decide),
   connection_session_invariant.2.2.1 envSshDown s0 rfl rfl rfl,
   connection_session_invariant.2.2.2.1 envSftpDown s0 rfl rfl⟩

/-- Helper: with a connected control-plane session and every attempt from i
on rejected, the import loop consumes every remaining attempt, sleeping
the fixed delay before each, and fails with the retry-exhausted error. -/
theorem importLoop_all_fail (env : Env) (login : String) (delay : Int) :
    ∀ remaining i s, s.conns.api = true →
      (∀ j, i ≤ j → j < i + remaining → env.importFail j = true) →
      ImportSshKeyLoop env login delay i remaining s =
        (.error .retryExhausted,
         { s with sleeps := s.sleeps ++ List.replicate remaining delay,
                  trace := s.trace ++ List.replicate remaining (Cmd.keyImport login) }) := by
  intro remaining
  induction remaining with
  | zero => intro i s hs _; simp [ImportSshKeyLoop]
  | succ n ih =>
    intro i s hs hf
    have hfi : env.importFail i = true := hf i le_rfl (by omega)
    simp only [ImportSshKeyLoop, GetConnectionAPI, hs, if_true, hfi]
    rw [ih (i + 1)
        { s with sleeps := s.sleeps ++ [delay], trace := s.trace ++ [Cmd.keyImport login] }
        hs (by intro j hA hB; exact hf j (by omega) (by omega))]
    simp [List.replicate_succ, List.append_assoc]

/-- Helper: with the attempts before m rejected and attempt m accepted
within the budget, the import loop returns success right after attempt m,
sleeping the fixed delay before each attempt made. -/
theorem importLoop_first_success (env : Env) (login : String) (delay : Int) :
    ∀ remaining i m s, s.conns.api = true →
      i ≤ m → m < i + remaining →
      (∀ j, i ≤ j → j < m → env.importFail j = true) →
      env.importFail m = false →
      ImportSshKeyLoop env login delay i remaining s =
        (.ok (),
         { s with sleeps := s.sleeps ++ List.replicate (m - i + 1) delay,
                  trace := s.trace ++ List.replicate (m - i + 1) (Cmd.keyImport login) }) := by
  intro remaining
  induction remaining with
  | zero => intro i m s hs h1 h2 _ _; omega
  | succ n ih =>
    intro i m s hs h1 h2 hf hm
    by_cases him : i = m
    · subst him
      simp only [ImportSshKeyLoop, GetConnectionAPI, hs, if_true, hm]
      simp
    · have hfi : env.importFail i = true := hf i le_rfl (by omega)
      simp only [ImportSshKeyLoop, GetConnectionAPI, hs, if_true, hfi]
      rw [ih (i + 1) m
        { s with sleeps := s.sleeps ++ [delay], trace := s.trace ++ [Cmd.keyImport login] }
        hs (by omega) (by omega) (by intro j hj1 hj2; exact hf j (by omega) hj2) hm]
      have hc : m - i + 1 = (m - (i + 1) + 1) + 1 := by omega
      rw [hc]
      simp [List.replicate_succ, List.append_assoc]

/-- C6.  With the control-plane session available: if every import attempt
within the budget is rejected, ImportSshKey performs exactly that number
of attempts, sleeping the same fixed delay before each one (constant, no
back-off growth), and then fails with the retry-exhausted error; if the
attempts before k are rejected and attempt k is accepted, it returns
success immediately after attempt k with no further attempts. -/
theorem importSshKey_retry_contract :
    (∀ env user delay attempts s, s.conns.api = true →
      (∀ i, 1 ≤ i → i ≤ attempts → env.importFail i = true) →
      ImportSshKey env user delay attempts s =
        (.error .retryExhausted,
         { s with sleeps := s.sleeps ++ List.replicate attempts delay,
                  trace := s.trace ++ List.replicate attempts (Cmd.keyImport user.login) })) ∧
    (∀ env user delay attempts k s, s.conns.api = true →
      1 ≤ k → k ≤ attempts →
      (∀ i, 1 ≤ i → i < k → env.importFail i = true) →
      env.importFail k = false →
      ImportSshKey env user delay attempts s =
        (.ok (),
         { s with sleeps := s.sleeps ++ List.replicate k delay,
                  trace := s.trace ++ List.replicate k (Cmd.keyImport user.login) })) := by
  constructor
  · intro env user delay attempts s hs hf
    exact importLoop_all_fail env user.login delay attempts 1 s hs
      (by intro j h1 h2; exact hf j h1 (by omega))
  · intro env user delay attempts k s hs h1 h2 hf hk
    have h := importLoop_first_success env user.login delay attempts 1 k s hs h1 (by omega) hf hk
    have hc : k - 1 + 1 = k := by omega
    rw [hc] at h
    exact h

/-- C6, witness: the retry contract applied at three attempts that all
fail, and at an environment whose first attempt succeeds. -/
theorem importSshKey_retry_contract_witness :
    ImportSshKey envImportDown userU 5000 3 sApi =
      (.error .retryExhausted,
       { sApi with sleeps := sApi.sleeps ++ List.replicate 3 5000,
                   trace := sApi.trace ++ List.replicate 3 (Cmd.keyImport userU.login) }) ∧
    ImportSshKey envAllOk userU 5000 3 sApi =
      (.ok (),
       { sApi with sleeps := sApi.sleeps ++ List.replicate 1 5000,
                   trace := sApi.trace ++ List.replicate 1 (Cmd.keyImport userU.login) }) :=
  ⟨importSshKey_retry_contract.1 envImportDown userU 5000 3 sApi rfl
     (by intro i h1 h2; rfl),
   importSshKey_retry_contract.2 envAllOk userU 5000 3 1 sApi rfl (by omega) (by omega)
     (by intro i h1 h2; omega) rfl⟩

/-- Helper: the allow-list scan agrees with list membership. -/
theorem isContain_iff_mem (l : TListOfStrings) (s : String) :
    TListOfStrings.IsContain l s = true ↔ s ∈ l := by
  induction l with
  | nil => simp [TListOfStrings.IsContain]
  | cons a rest ih =>
    by_cases h : a = s
    · subst h
      simp [TListOfStrings.IsContain]
    · rw [show TListOfStrings.IsContain (a :: rest) s = TListOfStrings.IsContain rest s from by
        simp [TListOfStrings.IsContain, h]]
      rw [ih, List.mem_cons]
      constructor
      · exact Or.inr
      · rintro (hEq | hMem)
        · exact absurd hEq.symm h
        · exact hMem

/-- Helper: folding the conditional removals of a whole snapshot over a
list keeps exactly the entries that are allowed or absent from the
snapshot. -/
theorem foldl_remove_general (p : String → Bool) :
    ∀ (l m : List String),
      l.foldl (fun acc u => if p u then acc else acc.filter (fun x => x ≠ u)) m
        = m.filter (fun x => p x || ! TListOfStrings.IsContain l x) := by
  intro l
  induction l with
  | nil =>
    intro m
    simp [TListOfStrings.IsContain]
  | cons u rest ih =>
    intro m
    by_cases hp : p u = true
    · simp only [List.foldl_cons, hp, if_true]
      rw [ih m]
      apply List.filter_congr
      intro x _
      by_cases hx : u = x
      · subst hx
        simp [TListOfStrings.IsContain, hp]
      · simp [TListOfStrings.IsContain, hx]
    · have hp' : p u = false := by simpa using hp
      simp only [List.foldl_cons, hp', Bool.false_eq_true, if_false]
      rw [ih (m.filter (fun x => x ≠ u)), List.filter_filter]
      apply List.filter_congr
      intro x _
      by_cases hx : u = x
      · subst hx
        simp [TListOfStrings.IsContain, hp']
      · simp [TListOfStrings.IsContain, hx, Ne.symm hx]

/-- Helper: removing the disallowed entries of a snapshot from the
snapshot itself keeps exactly its allowed entries. -/
theorem foldl_remove_self (p : String → Bool) (l : List String) :
    l.foldl (fun acc u => if p u then acc else acc.filter (fun x => x ≠ u)) l
      = l.filter p := by
  rw [foldl_remove_general]
  apply List.filter_congr
  intro x hx
  have hm : TListOfStrings.IsContain l x = true := (isContain_iff_mem l x).mpr hx
  simp [hm]

/-- Helper: the removal loop of CleanUsers under accepted commands and a
connected control-plane session removes from the live users exactly the
snapshot entries absent from the allow-list, tracing one removal command
for each. -/
theorem cleanUsersLoop_run (env : Env) (allowed : TListOfStrings)
    (hc : ∀ c, env.cmdFail c = false) :
    ∀ snapshot s, s.conns.api = true →
      CleanUsersLoop env allowed snapshot s =
        (.ok (),
         { s with
           live := { s.live with users := snapshot.foldl (fun acc u => if allowed.IsContain u then acc else acc.filter (fun x => x ≠ u)) s.live.users },
           trace := s.trace ++ (snapshot.filter (fun u => ! allowed.IsContain u)).map Cmd.userRemove }) := by
  intro snapshot
  induction snapshot with
  | nil => intro s hs; simp [CleanUsersLoop]
  | cons u rest ih =>
    intro s hs
    by_cases hp : allowed.IsContain u = true
    · rw [show CleanUsersLoop env allowed (u :: rest) s = CleanUsersLoop env allowed rest s from by
        simp [CleanUsersLoop, hp]]
      rw [ih s hs]
      simp [hp]
    · have hp' : allowed.IsContain u = false := by simpa using hp
      rw [show CleanUsersLoop env allowed (u :: rest) s =
          CleanUsersLoop env allowed rest
            { s with live := { s.live with users := s.live.users.filter (fun x => x ≠ u) }, trace := s.trace ++ [Cmd.userRemove u] } from by
        simp [CleanUsersLoop, hp', RemoveUser, runCmd, GetConnectionAPI, hs, hc]]
      rw [ih { s with live := { s.live with users := s.live.users.filter (fun x => x ≠ u) }, trace := s.trace ++ [Cmd.userRemove u] } hs]
      simp [hp', List.append_assoc]

/-- Helper: the removal loop of CleanGroups under accepted commands and a
connected control-plane session removes from the live groups exactly the
snapshot entries absent from the declared groups, tracing one removal
command for each. -/
theorem cleanGroupsLoop_run (env : Env) (declared : TGroups)
    (hc : ∀ c, env.cmdFail c = false) :
    ∀ snapshot s, s.conns.api = true →
      CleanGroupsLoop env declared snapshot s =
        (.ok (),
         { s with
           live := { s.live with groups := snapshot.foldl (fun acc u => if declared.IsContain u then acc else acc.filter (fun x => x ≠ u)) s.live.groups },
           trace := s.trace ++ (snapshot.filter (fun u => ! declared.IsContain u)).map Cmd.groupRemove }) := by
  intro snapshot
  induction snapshot with
  | nil => intro s hs; simp [CleanGroupsLoop]
  | cons u rest ih =>
    intro s hs
    by_cases hp : declared.IsContain u = true
    · rw [show CleanGroupsLoop env declared (u :: rest) s = CleanGroupsLoop env declared rest s from by
        simp [CleanGroupsLoop, hp]]
      rw [ih s hs]
      simp [hp]
    · have hp' : declared.IsContain u = false := by simpa using hp
      rw [show CleanGroupsLoop env declared (u :: rest) s =
          CleanGroupsLoop env declared rest
            { s with live := { s.live with groups := s.live.groups.filter (fun x => x ≠ u) }, trace := s.trace ++ [Cmd.groupRemove u] } from by
        simp [CleanGroupsLoop, hp', RemoveGroup, runCmd, GetConnectionAPI, hs, hc]]
      rw [ih { s with live := { s.live with groups := s.live.groups.filter (fun x => x ≠ u) }, trace := s.trace ++ [Cmd.groupRemove u] } hs]
      simp [hp', List.append_assoc]

/-- Helper: the removal loop of CleanSchedules under accepted commands and
a connected control-plane session removes from the live schedules exactly
the snapshot entries absent from the declared schedules, tracing one
removal command for each. -/
theorem cleanSchedulesLoop_run (env : Env) (declared : TSchedules)
    (hc : ∀ c, env.cmdFail c = false) :
    ∀ snapshot s, s.conns.api = true →
      CleanSchedulesLoop env declared snapshot s =
        (.ok (),
         { s with
           live := { s.live with schedules := snapshot.foldl (fun acc u => if declared.IsContain u then acc else acc.filter (fun x => x ≠ u)) s.live.schedules },
           trace := s.trace ++ (snapshot.filter (fun u => ! declared.IsContain u)).map Cmd.schedRemove }) := by
  intro snapshot
  induction snapshot with
  | nil => intro s hs; simp [CleanSchedulesLoop]
  | cons u rest ih =>
    intro s hs
    by_cases hp : declared.IsContain u = true
    · rw [show CleanSchedulesLoop env declared (u :: rest) s =
          CleanSchedulesLoop env declared rest s from by
        simp [CleanSchedulesLoop, hp]]
      rw [ih s hs]
      simp [hp]
    · have hp' : declared.IsContain u = false := by simpa using hp
      rw [show CleanSchedulesLoop env declared (u :: rest) s =
          CleanSchedulesLoop env declared rest
            { s with live := { s.live with schedules := s.live.schedules.filter (fun x => x ≠ u) }, trace := s.trace ++ [Cmd.schedRemove u] } from by
        simp [CleanSchedulesLoop, hp', RemoveSchedule, runCmd, GetConnectionAPI, hs, hc]]
      rw [ih { s with live := { s.live with schedules := s.live.schedules.filter (fun x => x ≠ u) }, trace := s.trace ++ [Cmd.schedRemove u] } hs]
      simp [hp', List.append_assoc]

/-- C4.  Under a failure-free environment with a connected control-plane
session, each clean pass succeeds, removes exactly the live entries absent
from the allowed or declared set for the device (tracing one removal
command per such entry, in snapshot order) and removes none of the allowed
or declared ones: the surviving live list is the filter of the old one by
the allow or declared predicate, for users the allow-list being the device
admin login, the extra-allowed logins and the declared users logins. -/
theorem clean_symmetric_difference :
    ∀ host env s, EnvOk env → s.conns.api = true →
      CleanUsers host env s =
        (.ok (),
         { s with
           live := { s.live with users := s.live.users.filter ((GetUsersAllowed host).IsContain) },
           trace := s.trace ++ (s.live.users.filter (fun u => ! (GetUsersAllowed host).IsContain u)).map Cmd.userRemove }) ∧
      CleanGroups host env s =
        (.ok (),
         { s with
           live := { s.live with groups := s.live.groups.filter (host.groups.IsContain) },
           trace := s.trace ++ (s.live.groups.filter (fun g => ! host.groups.IsContain g)).map Cmd.groupRemove }) ∧
      CleanSchedules host env s =
        (.ok (),
         { s with
           live := { s.live with schedules := s.live.schedules.filter (host.schedules.IsContain) },
           trace := s.trace ++ (s.live.schedules.filter (fun n => ! host.schedules.IsContain n)).map Cmd.schedRemove }) := by
  intro host env s henv hs
  obtain ⟨ha, hssh, hsftp, hc, hq, hi⟩ := henv
  refine ⟨?_, ?_, ?_⟩
  · rw [show CleanUsers host env s =
        CleanUsersLoop env (GetUsersAllowed host) s.live.users s from by
      simp [CleanUsers, GetUsers, runQuery, GetConnectionAPI, hs, hq]]
    rw [cleanUsersLoop_run env (GetUsersAllowed host) hc s.live.users s hs]
    rw [foldl_remove_self]
  · rw [show CleanGroups host env s =
        CleanGroupsLoop env host.groups s.live.groups s from by
      simp [CleanGroups, GetGroups, runQuery, GetConnectionAPI, hs, hq]]
    rw [cleanGroupsLoop_run env host.groups hc s.live.groups s hs]
    rw [foldl_remove_self]
  · rw [show CleanSchedules host env s =
        CleanSchedulesLoop env host.schedules s.live.schedules s from by
      simp [CleanSchedules, GetSchedules, runQuery, GetConnectionAPI, hs, hq]]
    rw [cleanSchedulesLoop_run env host.schedules hc s.live.schedules s hs]
    rw [foldl_remove_self]

/-- C4, witness: the clean passes applied to a device with one declared
user, group and schedule, one extra-allowed login, and live state holding
one undeclared entry of each kind. -/
theorem clean_symmetric_difference_witness :
    CleanUsers hostW envAllOk sLiveW =
      (.ok (),
       { sLiveW with
         live := { sLiveW.live with users := sLiveW.live.users.filter ((GetUsersAllowed hostW).IsContain) },
         trace := sLiveW.trace ++ (sLiveW.live.users.filter (fun u => ! (GetUsersAllowed hostW).IsContain u)).map Cmd.userRemove }) ∧
    CleanGroups hostW envAllOk sLiveW =
      (.ok (),
       { sLiveW with
         live := { sLiveW.live with groups := sLiveW.live.groups.filter (hostW.groups.IsContain) },
         trace := sLiveW.trace ++ (sLiveW.live.groups.filter (fun g => ! hostW.groups.IsContain g)).map Cmd.groupRemove }) ∧
    CleanSchedules hostW envAllOk sLiveW =
      (.ok (),
       { sLiveW with
         live := { sLiveW.live with schedules := sLiveW.live.schedules.filter (hostW.schedules.IsContain) },
         trace := sLiveW.trace ++ (sLiveW.live.schedules.filter (fun n => ! hostW.schedules.IsContain n)).map Cmd.schedRemove }) :=
  clean_symmetric_difference hostW envAllOk sLiveW
    ⟨rfl, rfl, rfl, fun _ => rfl, fun _ => rfl, fun _ => rfl⟩ rfl

/-- Helper: with both shell-layer dials accepted, the file-transfer
acquisition succeeds and only the connection flags change, the
control-plane flag surviving untouched. -/
theorem getConnectionSFTP_ok (env : Env) (hssh : env.sshFail = false)
    (hsftp : env.sftpFail = false) (s : DState) :
    ∃ c : Conns, GetConnectionSFTP env s = (.ok (), { s with conns := c }) ∧
      c.api = s.conns.api := by
  by_cases h1 : s.conns.sftp = true
  · exact ⟨s.conns, by simp [GetConnectionSFTP, h1], rfl⟩
  · rcases getConnectionSSH_spec env s with ⟨hg, hT⟩ | ⟨hg, hF, hE⟩ | ⟨hg, hF, hE⟩
    · refine ⟨{ s.conns with sftp := true }, ?_, rfl⟩
      unfold GetConnectionSFTP
      rw [if_neg h1, hg]
      simp [hsftp]
    · exact absurd hE (by simp [hssh])
    · refine ⟨⟨s.conns.api, true, true⟩, ?_, rfl⟩
      unfold GetConnectionSFTP
      rw [if_neg h1, hg]
      simp [hsftp]

/-- Helper: with every query and command accepted and a connected
control-plane session, an add-groups run succeeds, keeps the session
connected, only extends the live groups, and leaves every declared name
live. -/
theorem addGroupsLoop_run (env : Env)
    (hc : ∀ c, env.cmdFail c = false) (hq : ∀ k, env.queryFail k = false) :
    ∀ decl s, s.conns.api = true →
      (AddGroupsLoop env decl s).1 = .ok () ∧
      (AddGroupsLoop env decl s).2.conns.api = true ∧
      (∀ n, n ∈ s.live.groups → n ∈ (AddGroupsLoop env decl s).2.live.groups) ∧
      (∀ g ∈ decl, g.name ∈ (AddGroupsLoop env decl s).2.live.groups) := by
  intro decl
  induction decl with
  | nil => intro s hs; exact ⟨rfl, hs, fun n hn => hn, by simp⟩
  | cons g rest ih =>
    intro s hs
    have hqg : IsContainGroup env g s = (s.live.groups.contains g.name, s) := by
      simp [IsContainGroup, GetGroups, runQuery, GetConnectionAPI, hs, hq]
    by_cases hg : s.live.groups.contains g.name = true
    · rw [show AddGroupsLoop env (g :: rest) s = AddGroupsLoop env rest s from by
        simp only [AddGroupsLoop]; rw [hqg, hg]]
      obtain ⟨h1, h2, h3, h4⟩ := ih s hs
      refine ⟨h1, h2, h3, fun x hx => ?_⟩
      rcases List.mem_cons.mp hx with h | h
      · subst h; exact h3 _ (by simpa using hg)
      · exact h4 x h
    · have hg' : s.live.groups.contains g.name = false := by simpa using hg
      rw [show AddGroupsLoop env (g :: rest) s =
          AddGroupsLoop env rest { s with live := { s.live with groups := s.live.groups ++ [g.name] }, trace := s.trace ++ [Cmd.groupAdd g.name] } from by
        simp only [AddGroupsLoop]; rw [hqg, hg']; simp [MakeGroup, runCmd, GetConnectionAPI, hs, hc]]
      obtain ⟨h1, h2, h3, h4⟩ :=
        ih { s with live := { s.live with groups := s.live.groups ++ [g.name] }, trace := s.trace ++ [Cmd.groupAdd g.name] } hs
      refine ⟨h1, h2, fun n hn => h3 n (by simp [hn]), fun x hx => ?_⟩
      rcases List.mem_cons.mp hx with h | h
      · subst h; exact h3 _ (by simp)
      · exact h4 x h

/-- Helper: an add-groups run over declared groups that are all already
live issues nothing and returns the state unchanged. -/
theorem addGroupsLoop_skip (env : Env) (hq : ∀ k, env.queryFail k = false) :
    ∀ decl s, s.conns.api = true →
      (∀ g ∈ decl, g.name ∈ s.live.groups) →
      AddGroupsLoop env decl s = (.ok (), s) := by
  intro decl
  induction decl with
  | nil => intro s hs _; simp [AddGroupsLoop]
  | cons g rest ih =>
    intro s hs hall
    have hg : s.live.groups.contains g.name = true := by
      simpa using hall g (List.mem_cons_self g rest)
    have hqg : IsContainGroup env g s = (s.live.groups.contains g.name, s) := by
      simp [IsContainGroup, GetGroups, runQuery, GetConnectionAPI, hs, hq]
    rw [show AddGroupsLoop env (g :: rest) s = AddGroupsLoop env rest s from by
      simp only [AddGroupsLoop]; rw [hqg, hg]]
    exact ih s hs (fun x hx => hall x (List.mem_cons_of_mem g hx))

/-- Helper: adding one not-yet-live declared user under a failure-free
environment (its key provisioning included) continues the loop from a
state whose live users have gained exactly that login and whose
control-plane session is still connected. -/
theorem addUsersLoop_step_new (env : Env) (hssh : env.sshFail = false)
    (hsftp : env.sftpFail = false) (hc : ∀ c, env.cmdFail c = false)
    (hq : ∀ k, env.queryFail k = false) (hi : ∀ i, env.importFail i = false)
    (user : TUser) (rest : TUsers) (s : DState) (hs : s.conns.api = true)
    (hg : s.live.users.contains user.login = false) :
    ∃ s', AddUsersLoop env (user :: rest) s = AddUsersLoop env rest s' ∧
      s'.conns.api = true ∧ s'.live.users = s.live.users ++ [user.login] := by
  have hqu : IsContainUser env user s = (s.live.users.contains user.login, s) := by
    simp [IsContainUser, GetUsers, runQuery, GetConnectionAPI, hs, hq]
  have hmk : MakeUser env user s = (.ok (), { s with live := { s.live with users := s.live.users ++ [user.login] }, trace := s.trace ++ [Cmd.userAdd user.login] }) := by
    simp [MakeUser, runCmd, GetConnectionAPI, hs, hc]
  by_cases hkey : user.key = ""
  · refine ⟨{ s with live := { s.live with users := s.live.users ++ [user.login] }, trace := s.trace ++ [Cmd.userAdd user.login] }, ?_, hs, rfl⟩
    simp only [AddUsersLoop]; rw [hqu, hg]; simp [hmk, hkey]
  · obtain ⟨c, hsf, hcapi⟩ := getConnectionSFTP_ok env hssh hsftp
      { s with live := { s.live with users := s.live.users ++ [user.login] }, trace := s.trace ++ [Cmd.userAdd user.login] }
    have hup : UploadKey env user.key { s with live := { s.live with users := s.live.users ++ [user.login] }, trace := s.trace ++ [Cmd.userAdd user.login] } = (.ok (), { s with live := { s.live with users := s.live.users ++ [user.login] }, conns := c, trace := s.trace ++ [Cmd.userAdd user.login, Cmd.keyUpload user.key] }) := by
      rw [UploadKey, hsf]
      simp [hc]
    have himp := importLoop_first_success env user.login 5000 10 1 1
      { s with live := { s.live with users := s.live.users ++ [user.login] }, conns := c, trace := s.trace ++ [Cmd.userAdd user.login, Cmd.keyUpload user.key] }
      (hcapi.trans hs) le_rfl (by omega) (by intro j h1 h2; omega) (hi 1)
    refine ⟨{ s with live := { s.live with users := s.live.users ++ [user.login] }, conns := c, trace := s.trace ++ [Cmd.userAdd user.login, Cmd.keyUpload user.key, Cmd.keyImport user.login], sleeps := s.sleeps ++ [5000] }, ?_, hcapi.trans hs, rfl⟩
    rw [show AddUsersLoop env (user :: rest) s =
        match ImportSshKey env user 5000 10 { s with live := { s.live with users := s.live.users ++ [user.login] }, conns := c, trace := s.trace ++ [Cmd.userAdd user.login, Cmd.keyUpload user.key] } with
        | (.error e, s4) => (.error e, s4)
        | (.ok _, s4) => AddUsersLoop env rest s4 from by
      simp only [AddUsersLoop]; rw [hqu, hg]; simp [hmk, hkey, hup]]
    rw [show ImportSshKey env user 5000 10 { s with live := { s.live with users := s.live.users ++ [user.login] }, conns := c, trace := s.trace ++ [Cmd.userAdd user.login, Cmd.keyUpload user.key] } =
        (.ok (), { s with live := { s.live with users := s.live.users ++ [user.login] }, conns := c, trace := s.trace ++ [Cmd.userAdd user.login, Cmd.keyUpload user.key, Cmd.keyImport user.login], sleeps := s.sleeps ++ [5000] }) from by
      rw [ImportSshKey, himp]
      simp]

/-- Helper: with every interaction accepted and a connected control-plane
session, an add-users run succeeds, keeps the session connected, only
extends the live users, and leaves every declared login live. -/
theorem addUsersLoop_run (env : Env) (hssh : env.sshFail = false)
    (hsftp : env.sftpFail = false) (hc : ∀ c, env.cmdFail c = false)
    (hq : ∀ k, env.queryFail k = false) (hi : ∀ i, env.importFail i = false) :
    ∀ decl s, s.conns.api = true →
      (AddUsersLoop env decl s).1 = .ok () ∧
      (AddUsersLoop env decl s).2.conns.api = true ∧
      (∀ n, n ∈ s.live.users → n ∈ (AddUsersLoop env decl s).2.live.users) ∧
      (∀ u ∈ decl, u.login ∈ (AddUsersLoop env decl s).2.live.users) := by
  intro decl
  induction decl with
  | nil => intro s hs; exact ⟨rfl, hs, fun n hn => hn, by simp⟩
  | cons user rest ih =>
    intro s hs
    have hqu : IsContainUser env user s = (s.live.users.contains user.login, s) := by
      simp [IsContainUser, GetUsers, runQuery, GetConnectionAPI, hs, hq]
    by_cases hg : s.live.users.contains user.login = true
    · rw [show AddUsersLoop env (user :: rest) s = AddUsersLoop env rest s from by
        simp only [AddUsersLoop]; rw [hqu, hg]]
      obtain ⟨h1, h2, h3, h4⟩ := ih s hs
      refine ⟨h1, h2, h3, fun x hx => ?_⟩
      rcases List.mem_cons.mp hx with h | h
      · subst h; exact h3 _ (by simpa using hg)
      · exact h4 x h
    · have hg' : s.live.users.contains user.login = false := by simpa using hg
      obtain ⟨s', hstep, hapi', husers⟩ :=
        addUsersLoop_step_new env hssh hsftp hc hq hi user rest s hs hg'
      rw [hstep]
      obtain ⟨h1, h2, h3, h4⟩ := ih s' hapi'
      refine ⟨h1, h2, fun n hn => h3 n (by rw [husers]; exact List.mem_append_left _ hn),
        fun x hx => ?_⟩
      rcases List.mem_cons.mp hx with h | h
      · subst h
        exact h3 _ (by rw [husers]; exact List.mem_append_right _ (by simp))
      · exact h4 x h

/-- Helper: an add-users run over declared users whose logins are all
already live issues nothing and returns the state unchanged. -/
theorem addUsersLoop_skip (env : Env) (hq : ∀ k, env.queryFail k = false) :
    ∀ decl s, s.conns.api = true →
      (∀ u ∈ decl, u.login ∈ s.live.users) →
      AddUsersLoop env decl s = (.ok (), s) := by
  intro decl
  induction decl with
  | nil => intro s hs _; simp [AddUsersLoop]
  | cons user rest ih =>
    intro s hs hall
    have hg : s.live.users.contains user.login = true := by
      simpa using hall user (List.mem_cons_self user rest)
    have hqu : IsContainUser env user s = (s.live.users.contains user.login, s) := by
      simp [IsContainUser, GetUsers, runQuery, GetConnectionAPI, hs, hq]
    rw [show AddUsersLoop env (user :: rest) s = AddUsersLoop env rest s from by
      simp only [AddUsersLoop]; rw [hqu, hg]]
    exact ih s hs (fun x hx => hall x (List.mem_cons_of_mem user hx))

/-- Helper: with every query and command accepted and a connected
control-plane session, an add-schedules run succeeds, keeps the session
connected, only extends the live schedules, and leaves every declared name
live. -/
theorem addSchedulesLoop_run (env : Env)
    (hc : ∀ c, env.cmdFail c = false) (hq : ∀ k, env.queryFail k = false) :
    ∀ decl s, s.conns.api = true →
      (AddSchedulesLoop env decl s).1 = .ok () ∧
      (AddSchedulesLoop env decl s).2.conns.api = true ∧
      (∀ n, n ∈ s.live.schedules → n ∈ (AddSchedulesLoop env decl s).2.live.schedules) ∧
      (∀ x ∈ decl, x.name ∈ (AddSchedulesLoop env decl s).2.live.schedules) := by
  intro decl
  induction decl with
  | nil => intro s hs; exact ⟨rfl, hs, fun n hn => hn, by simp⟩
  | cons x rest ih =>
    intro s hs
    have hqx : IsContainSchedule env x s = (s.live.schedules.contains x.name, s) := by
      simp [IsContainSchedule, GetSchedules, runQuery, GetConnectionAPI, hs, hq]
    by_cases hg : s.live.schedules.contains x.name = true
    · rw [show AddSchedulesLoop env (x :: rest) s = AddSchedulesLoop env rest s from by
        simp only [AddSchedulesLoop]; rw [hqx, hg]]
      obtain ⟨h1, h2, h3, h4⟩ := ih s hs
      refine ⟨h1, h2, h3, fun y hy => ?_⟩
      rcases List.mem_cons.mp hy with h | h
      · subst h; exact h3 _ (by simpa using hg)
      · exact h4 y h
    · have hg' : s.live.schedules.contains x.name = false := by simpa using hg
      rw [show AddSchedulesLoop env (x :: rest) s =
          AddSchedulesLoop env rest { s with live := { s.live with schedules := s.live.schedules ++ [x.name] }, trace := s.trace ++ [Cmd.schedAdd x.name] } from by
        simp only [AddSchedulesLoop]; rw [hqx, hg']; simp [MakeSchedule, runCmd, GetConnectionAPI, hs, hc]]
      obtain ⟨h1, h2, h3, h4⟩ :=
        ih { s with live := { s.live with schedules := s.live.schedules ++ [x.name] }, trace := s.trace ++ [Cmd.schedAdd x.name] } hs
      refine ⟨h1, h2, fun n hn => h3 n (by simp [hn]), fun y hy => ?_⟩
      rcases List.mem_cons.mp hy with h | h
      · subst h; exact h3 _ (by simp)
      · exact h4 y h

/-- Helper: an add-schedules run over declared schedules that are all
already live issues nothing and returns the state unchanged. -/
theorem addSchedulesLoop_skip (env : Env) (hq : ∀ k, env.queryFail k = false) :
    ∀ decl s, s.conns.api = true →
      (∀ x ∈ decl, x.name ∈ s.live.schedules) →
      AddSchedulesLoop env decl s = (.ok (), s) := by
  intro decl
  induction decl with
  | nil => intro s hs _; simp [AddSchedulesLoop]
  | cons x rest ih =>
    intro s hs hall
    have hg : s.live.schedules.contains x.name = true := by
      simpa using hall x (List.mem_cons_self x rest)
    have hqx : IsContainSchedule env x s = (s.live.schedules.contains x.name, s) := by
      simp [IsContainSchedule, GetSchedules, runQuery, GetConnectionAPI, hs, hq]
    rw [show AddSchedulesLoop env (x :: rest) s = AddSchedulesLoop env rest s from by
      simp only [AddSchedulesLoop]; rw [hqx, hg]]
    exact ih s hs (fun y hy => hall y (List.mem_cons_of_mem x hy))

/-- C7.  Under a failure-free environment with a connected control-plane
session, running an add pass a second time right after a first run issues
no command at all and changes nothing: every declared group, user and
schedule is already live after the first run, so the second run skips each
one (a skip, not an error) and returns its input state unchanged. -/
theorem add_second_run_idempotent :
    ∀ host env s, EnvOk env → s.conns.api = true →
      AddGroups host env (AddGroups host env s).2 = (.ok (), (AddGroups host env s).2) ∧
      AddUsers host env (AddUsers host env s).2 = (.ok (), (AddUsers host env s).2) ∧
      AddSchedules host env (AddSchedules host env s).2 = (.ok (), (AddSchedules host env s).2) := by
  intro host env s henv hs
  obtain ⟨ha, hssh, hsftp, hc, hq, hi⟩ := henv
  refine ⟨?_, ?_, ?_⟩
  · obtain ⟨h1, h2, h3, h4⟩ := addGroupsLoop_run env hc hq host.groups s hs
    exact addGroupsLoop_skip env hq host.groups _ h2 h4
  · obtain ⟨h1, h2, h3, h4⟩ := addUsersLoop_run env hssh hsftp hc hq hi host.users s hs
    exact addUsersLoop_skip env hq host.users _ h2 h4
  · obtain ⟨h1, h2, h3, h4⟩ := addSchedulesLoop_run env hc hq host.schedules s hs
    exact addSchedulesLoop_skip env hq host.schedules _ h2 h4

/-- C7, witness: idempotence of the three add passes on the fixture device
with one declared user, group and schedule, starting from an empty live
state with a connected control-plane session. -/
theorem add_second_run_idempotent_witness :
    AddGroups hostW envAllOk (AddGroups hostW envAllOk sApi).2 =
      (.ok (), (AddGroups hostW envAllOk sApi).2) ∧
    AddUsers hostW envAllOk (AddUsers hostW envAllOk sApi).2 =
      (.ok (), (AddUsers hostW envAllOk sApi).2) ∧
    AddSchedules hostW envAllOk (AddSchedules hostW envAllOk sApi).2 =
      (.ok (), (AddSchedules hostW envAllOk sApi).2) :=
  add_second_run_idempotent hostW envAllOk sApi
    ⟨rfl, rfl, rfl, fun _ => rfl, fun _ => rfl, fun _ => rfl⟩ rfl

/-- C3, counterexample.  The claim says every mutation failure aborts the
remaining steps of the cycle and surfaces as the returned error, naming
the user-creation command inside AddUsers in particular; in the code that
one failure is logged and skipped.  With an environment that rejects
exactly the creation of user u, the cycle still creates the later declared
user v, still runs the backup download, and returns success: the rejected
userAdd u command sits in the trace, followed by the commands of the
supposedly aborted remainder, and no error reaches the caller. -/
theorem startManager_makeUser_failure_not_aborted :
    envUserAddUFail.cmdFail (Cmd.userAdd ("u")) = true ∧
    StartManager params0 hostUV envUserAddUFail sAdm =
      (.ok (), ⟨⟨["adm", "v"], [], []⟩, ⟨false, false, false⟩,
        [Cmd.userAdd ("u"), Cmd.userAdd ("v"), Cmd.treeDownload ("") ("/backup/")], []⟩) := by
  exact ⟨by decide, by decide⟩

/-- Helper: running an appended step list runs the first part and, when it
succeeds, continues with the second part from its final state. -/
theorem runSteps_append (fs gs : List (DState → Except Err Unit × DState)) :
    ∀ s, runSteps (fs ++ gs) s =
      match runSteps fs s with
      | (.error e, s') => (.error e, s')
      | (.ok _, s') => runSteps gs s' := by
  induction fs with
  | nil => intro s; simp [runSteps]
  | cons f rest ih =>
    intro s
    simp only [List.cons_append, runSteps]
    cases hf : f s with
    | mk r s' =>
      cases r with
      | error e => rfl
      | ok u => exact ih s'

/-- Helper: StartManager is the sequential run of its eight steps followed
by the success-path disconnect. -/
theorem startManager_as_steps (params : TParams) (host : THost) (env : Env) (s : DState) :
    StartManager params host env s =
      match params.GetByName ("dir_backup") with
      | .error e => (.error e, s)
      | .ok dir =>
        match runSteps (managerSteps host env (backupDirValue host dir.value)) s with
        | (.error e, s') => (.error e, s')
        | (.ok _, s') => (.ok (), Disconnect s') := by
  cases hlook : params.GetByName (("dir_backup")) with
  | error e => simp [StartManager, hlook]
  | ok dir =>
    simp only [StartManager, hlook, managerSteps, runSteps]
    cases h1 : CleanUsers host env s with
    | mk r1 s1 =>
      cases r1 with
      | error e => rfl
      | ok u1 =>
        dsimp only [runSteps]
        cases h2 : CleanGroups host env s1 with
        | mk r2 s2 =>
          cases r2 with
          | error e => rfl
          | ok u2 =>
            dsimp only [runSteps]
            cases h3 : CleanSchedules host env s2 with
            | mk r3 s3 =>
              cases r3 with
              | error e => rfl
              | ok u3 =>
                dsimp only [runSteps]
                cases h4 : AddGroups host env s3 with
                | mk r4 s4 =>
                  cases r4 with
                  | error e => rfl
                  | ok u4 =>
                    dsimp only [runSteps]
                    cases h5 : AddUsers host env s4 with
                    | mk r5 s5 =>
                      cases r5 with
                      | error e => rfl
                      | ok u5 =>
                        dsimp only [runSteps]
                        cases h6 : MakeBackupFolder host env s5 with
                        | mk r6 s6 =>
                          cases r6 with
                          | error e => rfl
                          | ok u6 =>
                            dsimp only [runSteps]
                            cases h7 : AddSchedules host env s6 with
                            | mk r7 s7 =>
                              cases r7 with
                              | error e => rfl
                              | ok u7 =>
                                dsimp only [runSteps]
                                cases h8 : DownloadFolderStep env host.backupFolder (backupDirValue host dir.value) s7 with
                                | mk r8 s8 =>
                                  cases r8 with
                                  | error e => rfl
                                  | ok u8 => rfl

/-- C3, amended.  A failure RETURNED by any of the eight steps of the
cycle aborts the remaining steps and is handed to the caller unchanged,
together with the device state as the failing step left it (so no later
step runs or issues commands); the one exception the code makes is the
user-creation command inside AddUsers, whose failure is logged and skipped
with the loop continuing over the remaining declared users from the
post-failure state. -/
theorem startManager_abort_semantics :
    (∀ params host env s dir i f fs sI e sE,
      params.GetByName ("dir_backup") = .ok dir →
      (managerSteps host env (backupDirValue host dir.value)).drop i = f :: fs →
      runSteps ((managerSteps host env (backupDirValue host dir.value)).take i) s = (.ok (), sI) →
      f sI = (.error e, sE) →
      StartManager params host env s = (.error e, sE)) ∧
    (∀ env user rest s s' e su,
      IsContainUser env user s = (false, s') →
      MakeUser env user s' = (.error e, su) →
      AddUsersLoop env (user :: rest) s = AddUsersLoop env rest su) := by
  constructor
  · intro params host env s dir i f fs sI e sE hlook hdrop htake hf
    rw [startManager_as_steps, hlook]
    have hrun : runSteps (managerSteps host env (backupDirValue host dir.value)) s =
        (.error e, sE) := by
      conv_lhs => rw [← List.take_append_drop i (managerSteps host env (backupDirValue host dir.value))]
      rw [runSteps_append, htake, hdrop]
      show runSteps (f :: fs) sI = (.error e, sE)
      simp only [runSteps]
      rw [hf]
    dsimp only
    rw [hrun]
  · intro env user rest s s' e su hic hmk
    simp only [AddUsersLoop]
    rw [hic]
    dsimp only
    rw [hmk]

/-- C3, witness: the abort law applied at step index zero with a failing
live-users query (the cycle returns that error with no commands issued),
and the skip law applied to the fixture in which the creation of user u is
rejected and the loop continues with user v. -/
theorem startManager_abort_semantics_witness :
    StartManager params0 host0 envQueryDown s0 =
      (.error .command, ⟨⟨[], [], []⟩, ⟨true, false, false⟩, [], []⟩) ∧
    AddUsersLoop envUserAddUFail [userU, userV] sAdm =
      AddUsersLoop envUserAddUFail [userV]
        ⟨⟨["adm"], [], []⟩, ⟨true, false, false⟩, [Cmd.userAdd ("u")], []⟩ :=
  ⟨startManager_abort_semantics.1 params0 host0 envQueryDown s0
      ⟨"dir_backup", "/backup/", ""⟩ 0
      (CleanUsers host0 envQueryDown)
      [CleanGroups host0 envQueryDown, CleanSchedules host0 envQueryDown,
       AddGroups host0 envQueryDown, AddUsers host0 envQueryDown,
       MakeBackupFolder host0 envQueryDown, AddSchedules host0 envQueryDown,
       DownloadFolderStep envQueryDown host0.backupFolder (backupDirValue host0 ("/backup/"))]
      s0 .command ⟨⟨[], [], []⟩, ⟨true, false, false⟩, [], []⟩
      rfl rfl rfl (by decide),
   startManager_abort_semantics.2 envUserAddUFail userU [userV] sAdm
      ⟨⟨["adm"], [], []⟩, ⟨true, false, false⟩, [], []⟩ .command
      ⟨⟨["adm"], [], []⟩, ⟨true, false, false⟩, [Cmd.userAdd ("u")], []⟩
      (by decide) (by decide)⟩
